import Mathlib

/-!
Shallow embedding of the core of `src/lib/workflow/util.py`:
the `LockFile` class (advisory file lock with polling acquisition),
the `uninterruptible` decorator (SIGTERM deferral around a unit of work),
and the `atomic_writer` context manager (atomic file replacement).

OS interaction (`fcntl.lockf`, `time.sleep`, `time.time`, signal delivery,
the filesystem) is modelled by explicit parameters:
* the outcome of each `fcntl.lockf` attempt is given by an environment
  `env : Nat → OsResp` indexed by the attempt number;
* wall-clock time advances only at `time.sleep(self.delay)` calls, by
  `delay` per sleep, so `elapsed` counts the slept time;
* the unbounded `while True` loop is made total with a fuel parameter,
  `outOfFuel` marking a run that is still looping.
-/

namespace WorkflowUtil

/-- errno.EACCES, one of the two errno values `acquire` treats as contention. -/
def EACCES : Nat := 13

/-- errno.EAGAIN, the other errno value `acquire` treats as contention. -/
def EAGAIN : Nat := 11

/-- Outcome of one `fcntl.lockf(self._lockfile, LOCK_EX | LOCK_NB)` call:
either the OS grants the exclusive lock, or it raises `IOError` with some
errno. -/
inductive OsResp where
  | granted
  | ioError (errno : Nat)
deriving DecidableEq, Repr

/-- The errno test at line 434 of util.py:
`err.errno not in (errno.EACCES, errno.EAGAIN)` re-raises; these two errnos
are retried as contention. -/
def contendedErrno (e : Nat) : Bool :=
  e == EACCES || e == EAGAIN

/-- Whether an OS response is the "would block" contention case. -/
def OsResp.isContention : OsResp → Bool
  | .granted => false
  | .ioError e => contendedErrno e

/-- State of one `LockFile` instance.
`lockfile` is `protected_path + '.lock'` (the sidecar path);
`timeout` and `delay` are the constructor arguments (durations, modelled
as natural numbers of ticks; Python's falsy `0.0` becomes `0`);
`locked` is the `self._lock` threading.Event;
`lockfileHandle` is `self._lockfile` (None, or an open file object);
`fileOnDisk` records whether a file currently exists at `lockfile`
(the `open(self.lockfile, 'a')` call creates it if absent). -/
structure LockState where
  lockfile : String
  timeout : Nat
  delay : Nat
  locked : Bool
  lockfileHandle : Option Nat
  fileOnDisk : Bool
deriving DecidableEq, Repr

/-- `LockFile.__init__(protected_path, timeout=0.0, delay=0.05)`:
lockfile is the protected path with `.lock` appended, handle starts unopened,
lock not held.  `fileExists` says whether a file already exists at the
sidecar path. -/
def LockFile.init (protectedPath : String) (timeout delay : Nat)
    (fileExists : Bool) : LockState :=
  { lockfile := protectedPath ++ ".lock"
    timeout := timeout
    delay := delay
    locked := false
    lockfileHandle := none
    fileOnDisk := fileExists }

/-- Lines 425-426 of util.py: `if self._lockfile is None:
self._lockfile = open(self.lockfile, 'a')` — open lazily in append mode,
creating the file on disk if it is absent. -/
def openLockfile (lf : LockState) : LockState :=
  if lf.lockfileHandle.isNone then
    { lf with lockfileHandle := some 0, fileOnDisk := true }
  else lf

/-- Result of `LockFile.acquire`: a normal return of a Bool, the
`AcquisitionError` raise, a re-raised unexpected `IOError`, or a run that
is still inside the `while True` loop when the fuel runs out.
`s` is the instance state at exit, `elapsed` the total slept time at exit,
`attempts` the number of `fcntl.lockf` calls made. -/
inductive AcquireResult where
  | ok (b : Bool) (s : LockState) (elapsed attempts : Nat)
  | timeoutErr (s : LockState) (elapsed attempts : Nat)
  | fatalErr (errno : Nat) (s : LockState) (elapsed attempts : Nat)
  | outOfFuel
deriving DecidableEq, Repr

/-- The `while True` loop of `LockFile.acquire` (lines 413-442 of util.py).
Each iteration: raise `AcquisitionError` if `self.timeout` is nonzero and
the elapsed time has reached it; if `self.locked`, sleep `delay` and retry;
otherwise lazily open the lockfile, then try `fcntl.lockf`: on success set
the lock and return True; on a contention errno return False when not
blocking, else sleep `delay` and retry; on any other errno re-raise. -/
def acquireLoop (lf : LockState) (blocking : Bool) (env : Nat → OsResp)
    (attempts elapsed fuel : Nat) : AcquireResult :=
  match fuel with
  | 0 => .outOfFuel
  | fuel + 1 =>
    if lf.timeout ≠ 0 ∧ lf.timeout ≤ elapsed then
      .timeoutErr lf elapsed attempts
    else if lf.locked then
      acquireLoop lf blocking env attempts (elapsed + lf.delay) fuel
    else
      match env attempts with
      | .granted =>
          .ok true { openLockfile lf with locked := true } elapsed (attempts + 1)
      | .ioError e =>
        if contendedErrno e then
          if !blocking then .ok false (openLockfile lf) elapsed (attempts + 1)
          else
            acquireLoop (openLockfile lf) blocking env (attempts + 1)
              (elapsed + lf.delay) fuel
        else .fatalErr e (openLockfile lf) elapsed (attempts + 1)

/-- `LockFile.acquire(blocking=True)` (lines 399-444 of util.py):
`if self.locked and not blocking: return False`, then the polling loop. -/
def LockState.acquire (lf : LockState) (blocking : Bool) (env : Nat → OsResp)
    (fuel : Nat) : AcquireResult :=
  if lf.locked && !blocking then .ok false lf 0 0
  else acquireLoop lf blocking env 0 0 fuel

/-- `LockFile.release()` (lines 446-463 of util.py).
`unlockFails` is whether `fcntl.lockf(self._lockfile, LOCK_UN)` raises
`IOError` (caught and ignored); `unlinkFails` is whether
`os.unlink(self.lockfile)` raises (caught and ignored).  The `finally`
block always clears the lock, drops the handle and executes `return True`,
so a locked handle always gets `(True, cleared state)` and an unlocked
handle `(False, unchanged)`; no exception ever escapes. -/
def LockState.release (lf : LockState) (unlockFails unlinkFails : Bool) :
    Bool × LockState :=
  if !lf.locked then (false, lf)
  else
    (true,
      { lf with
        locked := false
        lockfileHandle := none
        fileOnDisk := if unlinkFails then lf.fileOnDisk else false })

/-- signal.SIGTERM. -/
def SIGTERM : Nat := 15

/-- A SIGTERM disposition as seen by `signal.getsignal` / `signal.signal`:
`SIG_DFL`, `SIG_IGN`, an arbitrary Python handler function (identified by
an id), or the guard's own capturing `signal_handler` bound method. -/
inductive Disposition where
  | dfl
  | ign
  | handlerFn (id : Nat)
  | capturing
deriving DecidableEq, Repr

/-- `callable(self.old_signal_handler)` — handler functions (and the
capturing bound method) are callable, the integers `SIG_DFL` and `SIG_IGN`
are not. -/
def Disposition.isCallable : Disposition → Bool
  | .handlerFn _ => true
  | .capturing => true
  | .dfl => false
  | .ign => false

/-- How a call of the guarded callable ends: a normal Python return (the
returned value, `none` = Python's None), a propagated exception, or
`sys.exit(code)`. -/
inductive CallOutcome where
  | returned (v : Option Nat)
  | raised (e : Nat)
  | exited (code : Nat)
deriving DecidableEq, Repr

/-- Observable result of one `uninterruptible.__call__` invocation.
`finalDisposition` is the process-wide SIGTERM disposition at the moment
the call's outcome is observed by the caller; `prevInvoked` is the
`(signum, frame)` pair passed to `self.old_signal_handler` if line 526
invoked it; `calledWith` is the argument `self.func` was invoked with. -/
structure CallResult where
  finalDisposition : Disposition
  outcome : CallOutcome
  prevInvoked : Option (Nat × Nat)
  calledWith : Option Nat
deriving DecidableEq, Repr

/-- `uninterruptible.__call__` (lines 510-528 of util.py).
`old` is the disposition `signal.getsignal(SIGTERM)` returns at entry;
`f` is the behaviour of `self.func` (raises `e` or returns a value);
`arg` the argument; `arrivals` the frames of the SIGTERM deliveries that
occur while `self.func` runs (each one makes the installed capturing
handler overwrite `self._caught_signal`, so the last arrival wins).
The body: clear `_caught_signal`, record `old`, install the capturing
handler, run `self.func(arg)` — on an exception it propagates at once,
skipping the rest, with the capturing handler still installed; on normal
return (value discarded) restore `old`, then if a signal was caught:
a callable `old` is invoked with the caught pair, `SIG_DFL` leads to
`sys.exit(0)`, anything else does nothing; finally return None. -/
def uninterruptibleCall (old : Disposition) (f : Nat → Except Nat (Option Nat))
    (arg : Nat) (arrivals : List Nat) : CallResult :=
  let caught : Option (Nat × Nat) := arrivals.getLast?.map fun fr => (SIGTERM, fr)
  match f arg with
  | .error e =>
      { finalDisposition := .capturing
        outcome := .raised e
        prevInvoked := none
        calledWith := some arg }
  | .ok _v =>
      match caught with
      | none =>
          { finalDisposition := old
            outcome := .returned none
            prevInvoked := none
            calledWith := some arg }
      | some (s, fr) =>
          if old.isCallable then
            { finalDisposition := old
              outcome := .returned none
              prevInvoked := some (s, fr)
              calledWith := some arg }
          else if old = .dfl then
            { finalDisposition := old
              outcome := .exited 0
              prevInvoked := none
              calledWith := some arg }
          else
            { finalDisposition := old
              outcome := .returned none
              prevInvoked := none
              calledWith := some arg }

/-- The two filesystem cells `atomic_writer` touches: the target path
`fpath` and the temporary path `fpath + '.<pid>.tmp'`.  `none` means no
file exists at that path; file contents are byte lists. -/
structure FS where
  targetContent : Option (List Nat)
  tempContent : Option (List Nat)
deriving DecidableEq, Repr

/-- The `mode` argument of `atomic_writer` (same as for `open`):
truncating write or append. -/
inductive WMode where
  | write
  | append
deriving DecidableEq, Repr

/-- Content of the temporary file right after `open(temppath, mode)`:
append mode keeps existing content, write mode truncates, and either mode
creates the file if absent. -/
def tempInit (fs : FS) (mode : WMode) : List Nat :=
  match mode, fs.tempContent with
  | .append, some c => c
  | _, _ => []

/-- `atomic_writer(fpath, mode)` (lines 328-353 of util.py).
`body` is the caller's scoped write: it either appends `written` bytes to
the yielded temporary-file handle and finishes normally, or raises `e`
(partial writes before a raise only touch the temporary file, which the
`finally` block removes, so they are not observable afterwards).
Normal completion: `os.rename(temppath, fpath)` replaces the target with
the temporary file's content, then the `finally` `os.remove(temppath)`
fails (the file was renamed away) and is swallowed.
A raise: the `finally` removes the temporary file, the target keeps its
prior content, and the exception propagates. -/
def atomic_writer (fs : FS) (mode : WMode) (body : Except Nat (List Nat)) :
    Except Nat Unit × FS :=
  match body with
  | .ok written =>
      (.ok (),
        { targetContent := some (tempInit fs mode ++ written)
          tempContent := none })
  | .error e =>
      (.error e,
        { targetContent := fs.targetContent
          tempContent := none })

/-! Helper lemmas about `openLockfile` and the acquisition loop. -/

theorem openLockfile_timeout (lf : LockState) :
    (openLockfile lf).timeout = lf.timeout := by
  unfold openLockfile; split <;> rfl

theorem openLockfile_delay (lf : LockState) :
    (openLockfile lf).delay = lf.delay := by
  unfold openLockfile; split <;> rfl

theorem openLockfile_locked (lf : LockState) :
    (openLockfile lf).locked = lf.locked := by
  unfold openLockfile; split <;> rfl

theorem openLockfile_hasHandle (lf : LockState) :
    (openLockfile lf).lockfileHandle.isSome = true := by
  unfold openLockfile
  cases h : lf.lockfileHandle <;> simp [h]

theorem openLockfile_eq_of_isSome (lf : LockState)
    (h : lf.lockfileHandle.isSome = true) : openLockfile lf = lf := by
  unfold openLockfile
  cases hh : lf.lockfileHandle with
  | none => rw [hh] at h; simp at h
  | some x => simp

theorem openLockfile_fileOnDisk_of_none (lf : LockState)
    (h : lf.lockfileHandle = none) : (openLockfile lf).fileOnDisk = true := by
  unfold openLockfile
  simp [h]

/-- Whenever the loop exits with `AcquisitionError`, the instance timeout is
nonzero and the elapsed slept time has reached it. -/
theorem acquireLoop_timeoutErr_elapsed :
    ∀ (fuel : Nat) (lf : LockState) (bl : Bool) (env : Nat → OsResp)
      (a e : Nat) (s : LockState) (e' a' : Nat),
      acquireLoop lf bl env a e fuel = .timeoutErr s e' a' →
      lf.timeout ≠ 0 ∧ lf.timeout ≤ e' := by
  intro fuel
  induction fuel with
  | zero =>
    intro lf bl env a e s e' a' h
    simp [acquireLoop] at h
  | succ n ih =>
    intro lf bl env a e s e' a' h
    rw [acquireLoop] at h
    split at h
    · rename_i hcond
      rw [AcquireResult.timeoutErr.injEq] at h
      obtain ⟨hs, he, ha⟩ := h
      exact ⟨hcond.1, he ▸ hcond.2⟩
    · split at h
      · exact ih lf bl env a (e + lf.delay) s e' a' h
      · split at h
        · simp at h
        · split at h
          · split at h
            · simp at h
            · have := ih (openLockfile lf) bl env (a + 1) (e + lf.delay) s e' a' h
              rwa [openLockfile_timeout] at this
          · simp at h

/-- With a zero timeout and an environment that reports contention on every
attempt, a blocking acquisition loop never leaves the `while True` loop. -/
theorem acquireLoop_contended_outOfFuel :
    ∀ (fuel : Nat) (lf : LockState) (env : Nat → OsResp) (a e : Nat),
      lf.timeout = 0 → (∀ n, (env n).isContention = true) →
      acquireLoop lf true env a e fuel = .outOfFuel := by
  intro fuel
  induction fuel with
  | zero => intro lf env a e h0 hc; rfl
  | succ n ih =>
    intro lf env a e h0 hc
    rw [acquireLoop]
    rw [if_neg (by simp [h0])]
    by_cases hl : lf.locked = true
    · rw [if_pos hl]
      exact ih lf env a (e + lf.delay) h0 hc
    · rw [if_neg hl]
      rcases henv : env a with _ | er

      · have hca := hc a
        rw [henv] at hca
        simp [OsResp.isContention] at hca
      · have hca := hc a
        rw [henv] at hca
        simp only [OsResp.isContention] at hca
        simp only [hca, if_true, Bool.not_true, Bool.false_eq_true, if_false]
        have := ih (openLockfile lf) env (a + 1) (e + lf.delay)
          (by rw [openLockfile_timeout]; exact h0) hc
        exact this

/-- While this handle already holds the lock, the loop never acquires and
never returns: every run either runs out of fuel or raises
`AcquisitionError`, leaving the state and the attempt counter untouched. -/
theorem acquireLoop_locked_result :
    ∀ (fuel : Nat) (lf : LockState) (bl : Bool) (env : Nat → OsResp) (a e : Nat),
      lf.locked = true →
      acquireLoop lf bl env a e fuel = .outOfFuel ∨
        ∃ e', acquireLoop lf bl env a e fuel = .timeoutErr lf e' a := by
  intro fuel
  induction fuel with
  | zero => intro lf bl env a e _; exact Or.inl rfl
  | succ n ih =>
    intro lf bl env a e hl
    rw [acquireLoop]
    by_cases hcond : lf.timeout ≠ 0 ∧ lf.timeout ≤ e
    · rw [if_pos hcond]
      exact Or.inr ⟨e, rfl⟩
    · rw [if_neg hcond, if_pos hl]
      exact ih lf bl env a (e + lf.delay) hl

/-- While this handle already holds the lock, a nonzero timeout with a
positive polling delay forces the loop to raise `AcquisitionError` once it
has enough fuel. -/
theorem acquireLoop_locked_timeout :
    ∀ (fuel : Nat) (lf : LockState) (bl : Bool) (env : Nat → OsResp) (a e : Nat),
      lf.locked = true → lf.timeout ≠ 0 → 1 ≤ lf.delay →
      lf.timeout ≤ e + fuel →
      ∃ e', acquireLoop lf bl env a e (fuel + 1) = .timeoutErr lf e' a ∧
        lf.timeout ≤ e' := by
  intro fuel
  induction fuel with
  | zero =>
    intro lf bl env a e hl h0 hd hle
    rw [Nat.add_zero] at hle
    refine ⟨e, ?_, hle⟩
    rw [acquireLoop, if_pos ⟨h0, hle⟩]
  | succ n ih =>
    intro lf bl env a e hl h0 hd hle
    by_cases he : lf.timeout ≤ e
    · refine ⟨e, ?_, he⟩
      rw [acquireLoop, if_pos ⟨h0, he⟩]
    · rw [acquireLoop, if_neg (fun hc => he hc.2), if_pos hl]
      exact ih lf bl env a (e + lf.delay) hl h0 hd (by omega)

/-- With a nonzero timeout, a positive delay and an environment that reports
contention on every attempt, a blocking acquisition raises
`AcquisitionError` once it has enough fuel. -/
theorem acquireLoop_contended_timeout :
    ∀ (fuel : Nat) (lf : LockState) (env : Nat → OsResp) (a e : Nat),
      lf.timeout ≠ 0 → 1 ≤ lf.delay → (∀ n, (env n).isContention = true) →
      lf.timeout ≤ e + fuel →
      ∃ s e' a', acquireLoop lf true env a e (fuel + 1) = .timeoutErr s e' a' ∧
        lf.timeout ≤ e' := by
  intro fuel
  induction fuel with
  | zero =>
    intro lf env a e h0 hd hc hle
    rw [Nat.add_zero] at hle
    refine ⟨lf, e, a, ?_, hle⟩
    rw [acquireLoop, if_pos ⟨h0, hle⟩]
  | succ n ih =>
    intro lf env a e h0 hd hc hle
    by_cases he : lf.timeout ≤ e
    · refine ⟨lf, e, a, ?_, he⟩
      rw [acquireLoop, if_pos ⟨h0, he⟩]
    · rw [acquireLoop, if_neg (fun hco => he hco.2)]
      by_cases hl : lf.locked = true
      · rw [if_pos hl]
        exact ih lf env a (e + lf.delay) h0 hd hc (by omega)
      · rw [if_neg hl]
        rcases henv : env a with _ | er
        · have hca := hc a
          rw [henv] at hca
          simp [OsResp.isContention] at hca
        · have hca := hc a
          rw [henv] at hca
          simp only [OsResp.isContention] at hca
          simp only [hca, if_true, Bool.not_true, Bool.false_eq_true, if_false]
          have := ih (openLockfile lf) env (a + 1) (e + lf.delay)
            (by rw [openLockfile_timeout]; exact h0)
            (by rw [openLockfile_delay]; exact hd) hc
            (by rw [openLockfile_timeout]; omega)
          rw [openLockfile_timeout] at this
          exact this

/-- A loop run that returns True has set the `self._lock` event. -/
theorem acquireLoop_ok_locked :
    ∀ (fuel : Nat) (lf : LockState) (bl : Bool) (env : Nat → OsResp)
      (a e : Nat) (s : LockState) (e' a' : Nat),
      acquireLoop lf bl env a e fuel = .ok true s e' a' → s.locked = true := by
  intro fuel
  induction fuel with
  | zero =>
    intro lf bl env a e s e' a' h
    simp [acquireLoop] at h
  | succ n ih =>
    intro lf bl env a e s e' a' h
    rw [acquireLoop] at h
    split at h
    · simp at h
    · split at h
      · exact ih lf bl env a (e + lf.delay) s e' a' h
      · split at h
        · rw [AcquireResult.ok.injEq] at h
          obtain ⟨-, hs, -, -⟩ := h
          rw [← hs]
        · split at h
          · split at h
            · rw [AcquireResult.ok.injEq] at h
              obtain ⟨hb, -, -, -⟩ := h
              exact absurd hb.symm (by simp)
            · exact ih (openLockfile lf) bl env (a + 1) (e + lf.delay) s e' a' h
          · simp at h

/-- A loop run that raises `AcquisitionError` leaves the `self._lock` event
as it found it. -/
theorem acquireLoop_timeoutErr_locked :
    ∀ (fuel : Nat) (lf : LockState) (bl : Bool) (env : Nat → OsResp)
      (a e : Nat) (s : LockState) (e' a' : Nat),
      acquireLoop lf bl env a e fuel = .timeoutErr s e' a' →
      s.locked = lf.locked := by
  intro fuel
  induction fuel with
  | zero =>
    intro lf bl env a e s e' a' h
    simp [acquireLoop] at h
  | succ n ih =>
    intro lf bl env a e s e' a' h
    rw [acquireLoop] at h
    split at h
    · rw [AcquireResult.timeoutErr.injEq] at h
      obtain ⟨hs, -, -⟩ := h
      rw [← hs]
    · split at h
      · exact ih lf bl env a (e + lf.delay) s e' a' h
      · split at h
        · simp at h
        · split at h
          · split at h
            · simp at h
            · have := ih (openLockfile lf) bl env (a + 1) (e + lf.delay) s e' a' h
              rwa [openLockfile_locked] at this
          · simp at h

/-- Once the lockfile is open on disk and in the handle, any later
`AcquisitionError` exit still has it open and on disk. -/
theorem acquireLoop_timeoutErr_inv :
    ∀ (fuel : Nat) (lf : LockState) (bl : Bool) (env : Nat → OsResp)
      (a e : Nat) (s : LockState) (e' a' : Nat),
      lf.lockfileHandle.isSome = true → lf.fileOnDisk = true →
      acquireLoop lf bl env a e fuel = .timeoutErr s e' a' →
      s.lockfileHandle.isSome = true ∧ s.fileOnDisk = true := by
  intro fuel
  induction fuel with
  | zero =>
    intro lf bl env a e s e' a' _ _ h
    simp [acquireLoop] at h
  | succ n ih =>
    intro lf bl env a e s e' a' hh hd h
    rw [acquireLoop] at h
    split at h
    · rw [AcquireResult.timeoutErr.injEq] at h
      obtain ⟨hs, -, -⟩ := h
      rw [← hs]
      exact ⟨hh, hd⟩
    · split at h
      · exact ih lf bl env a (e + lf.delay) s e' a' hh hd h
      · split at h
        · simp at h
        · split at h
          · split at h
            · simp at h
            · rw [openLockfile_eq_of_isSome lf hh] at h
              exact ih lf bl env (a + 1) (e + lf.delay) s e' a' hh hd h
          · simp at h

/-- Starting from an unopened handle, an `AcquisitionError` exit that made
at least one `fcntl.lockf` attempt leaves the lockfile created on disk and
its open handle still stored in the instance. -/
theorem acquireLoop_timeoutErr_attempted :
    ∀ (fuel : Nat) (lf : LockState) (bl : Bool) (env : Nat → OsResp)
      (a e : Nat) (s : LockState) (e' a' : Nat),
      lf.lockfileHandle = none →
      acquireLoop lf bl env a e fuel = .timeoutErr s e' a' →
      a < a' →
      s.lockfileHandle.isSome = true ∧ s.fileOnDisk = true := by
  intro fuel
  induction fuel with
  | zero =>
    intro lf bl env a e s e' a' _ h
    simp [acquireLoop] at h
  | succ n ih =>
    intro lf bl env a e s e' a' hh h hlt
    rw [acquireLoop] at h
    split at h
    · rw [AcquireResult.timeoutErr.injEq] at h
      obtain ⟨-, -, ha⟩ := h
      omega
    · split at h
      · exact ih lf bl env a (e + lf.delay) s e' a' hh h hlt
      · split at h
        · simp at h
        · split at h
          · split at h
            · simp at h
            · exact acquireLoop_timeoutErr_inv n (openLockfile lf) bl env
                (a + 1) (e + lf.delay) s e' a' (openLockfile_hasHandle lf)
                (openLockfile_fileOnDisk_of_none lf hh) h
          · simp at h

/-- Unfolding `acquire` for a blocking call: the early non-blocking return is
skipped and the polling loop runs. -/
theorem acquire_blocking_eq (lf : LockState) (env : Nat → OsResp) (fuel : Nat) :
    lf.acquire true env fuel = acquireLoop lf true env 0 0 fuel := by
  simp [LockState.acquire]

/-- `acquire` returning True implies the lock event is set. -/
theorem acquire_ok_true_locked (lf : LockState) (bl : Bool) (env : Nat → OsResp)
    (fuel : Nat) (s : LockState) (e a : Nat)
    (h : lf.acquire bl env fuel = .ok true s e a) : s.locked = true := by
  rw [LockState.acquire] at h
  split at h
  · exact absurd h (by simp)
  · exact acquireLoop_ok_locked fuel lf bl env 0 0 s e a h

/-! Claim theorems. -/

/-- C2 counterexample: a handle that already holds the lock
(`locked = true`, `timeout = 1`, `delay = 1`), with `blocking = true` and an
OS that would even grant the lock, does not return `true` immediately — it
spins in the polling loop and raises `AcquisitionError`. -/
theorem C2_counterexample :
    LockState.acquire ⟨"x.lock", 1, 1, true, none, false⟩ true
      (fun _ => OsResp.granted) 5 =
    AcquireResult.timeoutErr ⟨"x.lock", 1, 1, true, none, false⟩ 1 0 := by
  rfl

/-- C2 (amended): with `blocking = true` on a handle that already holds the
lock, `acquire` never returns (neither `true` nor `false`): the loop keeps
sleeping `delay`; with `timeout = 0` it loops forever, and with a nonzero
timeout and positive delay it raises `AcquisitionError` once the elapsed
time reaches the timeout, leaving the state untouched. -/
theorem C2_locked_blocking_acquire (lf : LockState) (env : Nat → OsResp)
    (fuel : Nat) (hl : lf.locked = true) :
    (∀ b s e a, lf.acquire true env fuel ≠ .ok b s e a) ∧
    (lf.timeout = 0 → lf.acquire true env fuel = .outOfFuel) ∧
    (lf.timeout ≠ 0 → 1 ≤ lf.delay → lf.timeout + 1 ≤ fuel →
      ∃ e, lf.acquire true env fuel = .timeoutErr lf e 0 ∧ lf.timeout ≤ e) := by
  rw [acquire_blocking_eq]
  refine ⟨?_, ?_, ?_⟩
  · intro b s e a hok
    rcases acquireLoop_locked_result fuel lf true env 0 0 hl with h | ⟨e', h⟩ <;>
      rw [h] at hok <;> exact absurd hok (by simp)
  · intro h0
    rcases acquireLoop_locked_result fuel lf true env 0 0 hl with h | ⟨e', h⟩
    · exact h
    · have := acquireLoop_timeoutErr_elapsed fuel lf true env 0 0 lf e' 0 h
      exact absurd h0 this.1
  · intro h0 hd hfuel
    obtain ⟨k, rfl⟩ : ∃ k, fuel = k + 1 := ⟨fuel - 1, by omega⟩
    obtain ⟨e', hh, hle⟩ :=
      acquireLoop_locked_timeout k lf true env 0 0 hl h0 hd (by omega)
    exact ⟨e', hh, hle⟩

/-- C2 witness: concrete instance of the amended claim — a self-locked
handle with zero timeout loops forever under blocking acquisition. -/
theorem C2_witness :
    LockState.acquire ⟨"x.lock", 0, 1, true, none, false⟩ true
      (fun _ => OsResp.granted) 5 = AcquireResult.outOfFuel :=
  (C2_locked_blocking_acquire ⟨"x.lock", 0, 1, true, none, false⟩
    (fun _ => OsResp.granted) 5 rfl).2.1 rfl

/-- C4: `acquire` raises `AcquisitionError` only when the instance timeout
is nonzero and the elapsed wall-clock time has reached it; with
`timeout = 0` that error is never raised, a blocking call against permanent
contention loops forever, and conversely with a nonzero timeout, positive
delay and permanent contention the error is guaranteed once the loop has
run long enough. -/
theorem C4_acquisition_timeout (lf : LockState) (bl : Bool)
    (env : Nat → OsResp) (fuel : Nat) :
    (∀ s e a, lf.acquire bl env fuel = .timeoutErr s e a →
      lf.timeout ≠ 0 ∧ lf.timeout ≤ e) ∧
    (lf.timeout = 0 → ∀ s e a, lf.acquire bl env fuel ≠ .timeoutErr s e a) ∧
    (lf.timeout = 0 → (∀ n, (env n).isContention = true) →
      lf.acquire true env fuel = .outOfFuel) ∧
    (lf.timeout ≠ 0 → 1 ≤ lf.delay → (∀ n, (env n).isContention = true) →
      lf.timeout + 1 ≤ fuel →
      ∃ s e a, lf.acquire true env fuel = .timeoutErr s e a ∧
        lf.timeout ≤ e) := by
  refine ⟨?_, ?_, ?_, ?_⟩
  · intro s e a h
    rw [LockState.acquire] at h
    split at h
    · exact absurd h (by simp)
    · exact acquireLoop_timeoutErr_elapsed fuel lf bl env 0 0 s e a h
  · intro h0 s e a h
    rw [LockState.acquire] at h
    split at h
    · exact absurd h (by simp)
    · exact absurd h0
        (acquireLoop_timeoutErr_elapsed fuel lf bl env 0 0 s e a h).1
  · intro h0 hc
    rw [acquire_blocking_eq]
    exact acquireLoop_contended_outOfFuel fuel lf env 0 0 h0 hc
  · intro h0 hd hc hfuel
    rw [acquire_blocking_eq]
    obtain ⟨k, rfl⟩ : ∃ k, fuel = k + 1 := ⟨fuel - 1, by omega⟩
    exact acquireLoop_contended_timeout k lf env 0 0 h0 hd hc (by omega)

/-- C4 witness: with `timeout = 0` and an always-contended lock, a blocking
`acquire` never raises and never returns — it is still polling when any
given fuel runs out. -/
theorem C4_witness :
    LockState.acquire ⟨"x.lock", 0, 1, false, none, false⟩ true
      (fun _ => OsResp.ioError 11) 5 = AcquireResult.outOfFuel :=
  (C4_acquisition_timeout ⟨"x.lock", 0, 1, false, none, false⟩ true
    (fun _ => OsResp.ioError 11) 5).2.2.1 rfl (fun _ => rfl)

/-- C5: non-blocking `acquire` returns `false` with zero elapsed (slept)
time when the lock cannot be had: a self-held lock returns before the loop
with no `fcntl.lockf` attempt, and OS contention returns inside the first
iteration after a single attempt — no sleep, no retry, for any fuel. -/
theorem C5_nonblocking_immediate (lf : LockState) (env : Nat → OsResp)
    (fuel : Nat) :
    (lf.locked = true → lf.acquire false env fuel = .ok false lf 0 0) ∧
    (lf.locked = false → (env 0).isContention = true → 1 ≤ fuel →
      lf.acquire false env fuel = .ok false (openLockfile lf) 0 1) := by
  constructor
  · intro hl
    simp [LockState.acquire, hl]
  · intro hl hc hf
    rw [LockState.acquire, if_neg (by simp [hl])]
    obtain ⟨k, rfl⟩ : ∃ k, fuel = k + 1 := ⟨fuel - 1, by omega⟩
    rw [acquireLoop, if_neg (by rintro ⟨hne, hle⟩; omega),
      if_neg (by simp [hl])]
    rcases henv : env 0 with _ | er
    · rw [henv] at hc
      simp [OsResp.isContention] at hc
    · rw [henv] at hc
      simp only [OsResp.isContention] at hc
      simp [hc]

/-- C5 witness: a fresh unlocked handle, non-blocking, against a lock held
elsewhere (EAGAIN), returns `false` after one attempt with nothing slept. -/
theorem C5_witness :
    LockState.acquire ⟨"x.lock", 0, 1, false, none, false⟩ false
      (fun _ => OsResp.ioError 11) 5 =
    AcquireResult.ok false ⟨"x.lock", 0, 1, false, some 0, true⟩ 0 1 :=
  (C5_nonblocking_immediate ⟨"x.lock", 0, 1, false, none, false⟩
    (fun _ => OsResp.ioError 11) 5).2 rfl rfl (by omega)

/-- C6: after an `acquire` that returned `true`, the first `release`
returns `true`, the immediately following `release` returns `false` and
changes nothing, and releasing any handle that is not locked is a raise-free
no-op returning `false`. -/
theorem C6_release_idempotent (lf : LockState) (bl : Bool)
    (env : Nat → OsResp) (fuel : Nat) (s : LockState) (e a : Nat)
    (u1 n1 u2 n2 : Bool)
    (hacq : lf.acquire bl env fuel = .ok true s e a) :
    (s.release u1 n1).1 = true ∧
    (s.release u1 n1).2.release u2 n2 = (false, (s.release u1 n1).2) ∧
    (∀ (lf2 : LockState) (u n : Bool), lf2.locked = false →
      lf2.release u n = (false, lf2)) := by
  have hs : s.locked = true := acquire_ok_true_locked lf bl env fuel s e a hacq
  refine ⟨?_, ?_, ?_⟩
  · simp [LockState.release, hs]
  · simp [LockState.release, hs]
  · intro lf2 u n h2
    simp [LockState.release, h2]

/-- C6 witness: a concrete acquire-then-release-twice run returning
`true` then `false`. -/
theorem C6_witness :
    ((⟨"x.lock", 0, 1, true, some 0, true⟩ : LockState).release true true).1 =
      true ∧
    ((⟨"x.lock", 0, 1, true, some 0, true⟩ : LockState).release true
        true).2.release false false =
      (false,
        ((⟨"x.lock", 0, 1, true, some 0, true⟩ : LockState).release true
          true).2) :=
  ⟨(C6_release_idempotent ⟨"x.lock", 0, 1, false, none, false⟩ true
      (fun _ => OsResp.granted) 1 ⟨"x.lock", 0, 1, true, some 0, true⟩ 0 1
      true true false false rfl).1,
   (C6_release_idempotent ⟨"x.lock", 0, 1, false, none, false⟩ true
      (fun _ => OsResp.granted) 1 ⟨"x.lock", 0, 1, true, some 0, true⟩ 0 1
      true true false false rfl).2.1⟩

/-- C7: releasing a locked handle always returns `true` and always clears
the lock event and drops the stored handle, whether or not the OS unlock
raises and whether or not deleting the lockfile fails (a failed unlink just
leaves the file on disk); no error escapes. -/
theorem C7_release_never_fails (lf : LockState) (uFail nFail : Bool)
    (hl : lf.locked = true) :
    lf.release uFail nFail =
      (true,
        { lf with
          locked := false
          lockfileHandle := none
          fileOnDisk := if nFail then lf.fileOnDisk else false }) := by
  simp [LockState.release, hl]

/-- C7 witness: a locked handle whose OS unlock and unlink both fail still
releases with `true` and a cleared state (the lockfile stays on disk). -/
theorem C7_witness :
    (⟨"x.lock", 0, 1, true, some 0, true⟩ : LockState).release true true =
      (true, ⟨"x.lock", 0, 1, false, none, true⟩) :=
  C7_release_never_fails ⟨"x.lock", 0, 1, true, some 0, true⟩ true true rfl

/-- C10: when `acquire` raises `AcquisitionError` from a handle that did
not hold the lock and had no open handle, the lock event is still clear,
but if at least one `fcntl.lockf` attempt was made, the lockfile has been
created on disk and its open descriptor is still stored in the handle —
the failed call neither closes nor resets it. -/
theorem C10_timeout_side_effects (lf : LockState) (bl : Bool)
    (env : Nat → OsResp) (fuel : Nat) (s : LockState) (e a : Nat)
    (hl : lf.locked = false) (hh : lf.lockfileHandle = none)
    (ht : lf.acquire bl env fuel = .timeoutErr s e a) :
    s.locked = false ∧
    (0 < a → s.lockfileHandle.isSome = true ∧ s.fileOnDisk = true) := by
  rw [LockState.acquire] at ht
  split at ht
  · exact absurd ht (by simp)
  · refine ⟨?_, ?_⟩
    · rw [acquireLoop_timeoutErr_locked fuel lf bl env 0 0 s e a ht, hl]
    · intro ha
      exact acquireLoop_timeoutErr_attempted fuel lf bl env 0 0 s e a hh ht ha

/-- C10 witness: a blocking acquire against permanent contention with
`timeout = 1`, `delay = 1` times out after one attempt, leaving the lock
clear but the lockfile created and its descriptor still in the handle. -/
theorem C10_witness :
    (⟨"x.lock", 1, 1, false, some 0, true⟩ : LockState).locked = false ∧
    (0 < 1 →
      (⟨"x.lock", 1, 1, false, some 0, true⟩ :
        LockState).lockfileHandle.isSome = true ∧
      (⟨"x.lock", 1, 1, false, some 0, true⟩ : LockState).fileOnDisk = true) :=
  C10_timeout_side_effects ⟨"x.lock", 1, 1, false, none, false⟩ true
    (fun _ => OsResp.ioError 11) 3 ⟨"x.lock", 1, 1, false, some 0, true⟩ 1 1
    rfl rfl rfl

/-- `self.func` is always invoked with the caller's argument. -/
theorem uninterruptibleCall_calledWith (old : Disposition)
    (f : Nat → Except Nat (Option Nat)) (arg : Nat) (arrivals : List Nat) :
    (uninterruptibleCall old f arg arrivals).calledWith = some arg := by
  unfold uninterruptibleCall
  rcases hf : f arg with e | v
  · rfl
  · rcases hl : arrivals.getLast? with _ | fr
    · rfl
    · by_cases hc : old.isCallable = true
      · simp [hc]
      · by_cases hd : old = .dfl
        · subst hd
          simp [Disposition.isCallable]
        · simp [hc, hd]

/-- C1 counterexample: a unit of work that raises (here error `7`) with a
default SIGTERM disposition at entry propagates the error, but at the
moment the caller observes it, the installed disposition is the guard's
capturing handler, not the one recorded at entry. -/
theorem C1_counterexample :
    (uninterruptibleCall .dfl (fun _ => Except.error 7) 0 []).outcome =
      CallOutcome.raised 7 ∧
    (uninterruptibleCall .dfl (fun _ => Except.error 7) 0
        []).finalDisposition ≠ Disposition.dfl ∧
    (uninterruptibleCall .dfl (fun _ => Except.error 7) 0
        []).finalDisposition = Disposition.capturing := by
  refine ⟨rfl, ?_, rfl⟩
  intro h
  simp [uninterruptibleCall] at h

/-- C1 (amended): an error raised by the unit of work is propagated to the
caller unchanged, but the previously installed SIGTERM handler is NOT
restored on that path — the guard's capturing handler is still installed
when the caller observes the error; the recorded handler is restored only
when the unit of work returns normally. -/
theorem C1_error_path_restoration (old : Disposition)
    (f : Nat → Except Nat (Option Nat)) (arg : Nat) (arrivals : List Nat) :
    (∀ e, f arg = .error e →
      (uninterruptibleCall old f arg arrivals).outcome = .raised e ∧
      (uninterruptibleCall old f arg arrivals).finalDisposition =
        .capturing) ∧
    (∀ v, f arg = .ok v →
      (uninterruptibleCall old f arg arrivals).finalDisposition = old) := by
  constructor
  · intro e he
    unfold uninterruptibleCall
    rw [he]
    exact ⟨rfl, rfl⟩
  · intro v hv
    unfold uninterruptibleCall
    rw [hv]
    rcases hl : arrivals.getLast? with _ | fr
    · rfl
    · by_cases hc : old.isCallable = true
      · simp [hc]
      · by_cases hd : old = .dfl
        · subst hd
          simp [Disposition.isCallable]
        · simp [hc, hd]

/-- C1 witness: concrete instance of the amended claim at error `7` under a
default disposition. -/
theorem C1_witness :
    (uninterruptibleCall .dfl (fun _ => Except.error 7) 5 [9]).outcome =
      CallOutcome.raised 7 ∧
    (uninterruptibleCall .dfl (fun _ => Except.error 7) 5
        [9]).finalDisposition = Disposition.capturing :=
  (C1_error_path_restoration .dfl (fun _ => Except.error 7) 5 [9]).1 7 rfl

/-- C3 counterexample: a unit of work returning `42` (with SIG_IGN at entry
and no signal) is wrapped into a call that returns Python's None, not `42`:
the return value is discarded. -/
theorem C3_counterexample :
    (uninterruptibleCall .ign (fun _ => Except.ok (some 42)) 0 []).outcome ≠
      CallOutcome.returned (some 42) ∧
    (uninterruptibleCall .ign (fun _ => Except.ok (some 42)) 0 []).outcome =
      CallOutcome.returned none := by
  refine ⟨?_, rfl⟩
  intro h
  simp [uninterruptibleCall] at h

/-- C3 (amended): the guarded callable invokes the unit of work with the
same argument and, when no error is raised and no pending signal terminates
the process, returns normally — but it returns None, discarding the unit of
work's return value, instead of returning the same result. -/
theorem C3_guarded_call_contract (old : Disposition)
    (f : Nat → Except Nat (Option Nat)) (arg : Nat) (arrivals : List Nat)
    (v : Option Nat) (hv : f arg = .ok v)
    (hterm : old = .dfl → arrivals = []) :
    (uninterruptibleCall old f arg arrivals).outcome = .returned none ∧
    (uninterruptibleCall old f arg arrivals).calledWith = some arg := by
  refine ⟨?_, uninterruptibleCall_calledWith old f arg arrivals⟩
  unfold uninterruptibleCall
  rw [hv]
  rcases hl : arrivals.getLast? with _ | fr
  · rfl
  · by_cases hc : old.isCallable = true
    · simp [hc]
    · by_cases hd : old = .dfl
      · rw [hterm hd] at hl
        simp at hl
      · simp [hc, hd]

/-- C3 witness: concrete instance of the amended claim — the value `42` is
discarded and None returned. -/
theorem C3_witness :
    (uninterruptibleCall .ign (fun _ => Except.ok (some 42)) 3 []).outcome =
      CallOutcome.returned none ∧
    (uninterruptibleCall .ign (fun _ => Except.ok (some 42)) 3
        []).calledWith = some 3 :=
  C3_guarded_call_contract .ign (fun _ => Except.ok (some 42)) 3 [] (some 42)
    rfl (fun h => by simp at h)

/-- C8: when the unit of work returns normally and SIGTERM was captured
during its execution, the recorded disposition is back in place, and the
original disposition's effect is re-delivered: a callable previous handler
is invoked with the captured `(signum, frame)` (the last arrival), the
default disposition leads to `sys.exit(0)`, and SIG_IGN leads to nothing
further. -/
theorem C8_signal_redelivery (old : Disposition)
    (f : Nat → Except Nat (Option Nat)) (arg : Nat) (arrivals : List Nat)
    (v : Option Nat) (fr : Nat) (hv : f arg = .ok v)
    (hlast : arrivals.getLast? = some fr) :
    (uninterruptibleCall old f arg arrivals).finalDisposition = old ∧
    (old.isCallable = true →
      (uninterruptibleCall old f arg arrivals).prevInvoked =
        some (SIGTERM, fr) ∧
      (uninterruptibleCall old f arg arrivals).outcome = .returned none) ∧
    (old = .dfl →
      (uninterruptibleCall old f arg arrivals).outcome = .exited 0 ∧
      (uninterruptibleCall old f arg arrivals).prevInvoked = none) ∧
    (old = .ign →
      (uninterruptibleCall old f arg arrivals).outcome = .returned none ∧
      (uninterruptibleCall old f arg arrivals).prevInvoked = none) := by
  unfold uninterruptibleCall
  rw [hv, hlast]
  cases old <;>
    simp [Disposition.isCallable]

/-- C8 witness: a previous callable handler (id 3) is re-invoked with
SIGTERM and the last captured frame (9) after the wrapped call returns. -/
theorem C8_witness :
    (uninterruptibleCall (.handlerFn 3) (fun _ => Except.ok none) 5
        [8, 9]).finalDisposition = Disposition.handlerFn 3 ∧
    (uninterruptibleCall (.handlerFn 3) (fun _ => Except.ok none) 5
        [8, 9]).prevInvoked = some (SIGTERM, 9) ∧
    (uninterruptibleCall (.handlerFn 3) (fun _ => Except.ok none) 5
        [8, 9]).outcome = CallOutcome.returned none :=
  ⟨(C8_signal_redelivery (.handlerFn 3) (fun _ => Except.ok none) 5 [8, 9]
      none 9 rfl rfl).1,
   (C8_signal_redelivery (.handlerFn 3) (fun _ => Except.ok none) 5 [8, 9]
      none 9 rfl rfl).2.1 rfl⟩

/-- C9: the atomic writer renames the temporary file over the target when
the scoped write finishes normally (so the target holds exactly what was
written to the temporary handle), and on an error propagating out of the
scope it removes the temporary file, propagates the error unchanged, and
leaves the target's prior content untouched. -/
theorem C9_atomic_writer_contract (fs : FS) (mode : WMode)
    (body : Except Nat (List Nat)) :
    (∀ d, body = .ok d →
      (atomic_writer fs mode body).1 = .ok () ∧
      (atomic_writer fs mode body).2.targetContent =
        some (tempInit fs mode ++ d) ∧
      (atomic_writer fs mode body).2.tempContent = none) ∧
    (∀ e, body = .error e →
      (atomic_writer fs mode body).1 = .error e ∧
      (atomic_writer fs mode body).2.targetContent = fs.targetContent ∧
      (atomic_writer fs mode body).2.tempContent = none) := by
  constructor
  · intro d hd
    rw [hd]
    exact ⟨rfl, rfl, rfl⟩
  · intro e he
    rw [he]
    exact ⟨rfl, rfl, rfl⟩

/-- C9 witness: writing bytes `[9, 9]` in truncating mode replaces the
target `[1, 2]` with `[9, 9]`; a failing scope leaves the target at
`[1, 2]` and removes the temporary file. -/
theorem C9_witness :
    (atomic_writer ⟨some [1, 2], none⟩ .write
        (Except.ok [9, 9])).2.targetContent = some [9, 9] ∧
    (atomic_writer ⟨some [1, 2], none⟩ .write
        (Except.ok [9, 9])).2.tempContent = none ∧
    (atomic_writer ⟨some [1, 2], none⟩ .write (Except.error 4)).1 =
      Except.error 4 ∧
    (atomic_writer ⟨some [1, 2], none⟩ .write
        (Except.error 4)).2.targetContent = some [1, 2] :=
  ⟨((C9_atomic_writer_contract ⟨some [1, 2], none⟩ .write
      (Except.ok [9, 9])).1 [9, 9] rfl).2.1,
   ((C9_atomic_writer_contract ⟨some [1, 2], none⟩ .write
      (Except.ok [9, 9])).1 [9, 9] rfl).2.2,
   ((C9_atomic_writer_contract ⟨some [1, 2], none⟩ .write
      (Except.error 4)).2 4 rfl).1,
   ((C9_atomic_writer_contract ⟨some [1, 2], none⟩ .write
      (Except.error 4)).2 4 rfl).2.1⟩

end WorkflowUtil
